import Mathlib

/-!
Verification development for the kapp-controller packages plugin of kubeapps.

The repository ships the plugin's test suite
(`cmd/kubeapps-apis/plugins/kapp_controller/packages/v1alpha1/server_test.go`)
while the implementation files (`server.go`, `repositories.go`, the plugin
config loader, and the shared `pkgutils` helpers) are absent from `src/`.
The definitions below therefore embed the behaviour of the missing
implementation: each is modelled from the natural-language spec, and wherever
the test suite in `src/` pins a concrete input/output pair the definition is
kept consistent with those pinned vectors (the tests are the only repository
code available for these functions).
-/

namespace KappController

/-! ## SemVer engine (spec §4.1)

Modelled from the spec: `parse(versionString)`, semver ordering, constraint
matching and latest/latest-matching selection.  The real plugin delegates to
the Masterminds semver library; no implementation is under `src/`.  Prerelease
tags are kept as a single opaque identifier string ordered by plain string
comparison, which is faithful to the spec's stated properties (none of which
involve multi-identifier prereleases). -/

/-- A parsed semantic version: numeric `major.minor.patch` core plus an
optional prerelease identifier (the part after `-`). -/
structure SemVer where
  major : Nat
  minor : Nat
  patch : Nat
  prerelease : Option String
  deriving Repr, DecidableEq

/-- Split a character list at every occurrence of `sep`. -/
def splitOnChar (sep : Char) : List Char → List (List Char)
  | [] => [[]]
  | c :: rest =>
    match splitOnChar sep rest with
    | [] => [[]]
    | g :: gs => if c = sep then [] :: g :: gs else (c :: g) :: gs

/-- Split a character list at the first occurrence of `sep`; the second
component is `none` when `sep` does not occur. -/
def splitFirst (sep : Char) : List Char → List Char × Option (List Char)
  | [] => ([], none)
  | c :: rest =>
    if c = sep then ([], some rest)
    else
      let r := splitFirst sep rest
      (c :: r.1, r.2)

/-- Numeric value of a decimal digit character. -/
def digitVal (c : Char) : Option Nat :=
  if c.isDigit then some (c.toNat - 48) else none

/-- Parse a nonempty list of decimal digits as a natural number. -/
def parseNatChars (l : List Char) : Option Nat :=
  match l with
  | [] => none
  | _ => l.foldl (fun acc c => acc.bind fun n => (digitVal c).map fun d => n * 10 + d) (some 0)

/-- Character-level version parser underlying `parseSemVer`. -/
def parseSemVerChars (l : List Char) : Option SemVer :=
  let (core, pre) := splitFirst '-' l
  match splitOnChar '.' core with
  | [a, b, c] =>
    match parseNatChars a, parseNatChars b, parseNatChars c with
    | some ma, some mi, some pa => some ⟨ma, mi, pa, pre.map String.mk⟩
    | _, _, _ => none
  | _ => none

/-- Modelled from the spec: `parse(versionString) -> Version | InvalidVersion`
(§4.1).  Accepts `MAJOR.MINOR.PATCH` with an optional `-prerelease` suffix. -/
def parseSemVer (s : String) : Option SemVer :=
  parseSemVerChars s.data

/-- Strict ordering on optional prerelease tags: a release (`none`) is
greater than any prerelease; prerelease identifiers are compared as
strings. -/
def preLtB : Option String → Option String → Bool
  | none, _ => false
  | some _, none => true
  | some x, some y => decide (x < y)

/-- Strict semantic-version ordering: compare the numeric core
lexicographically, then the prerelease tag. -/
def SemVer.ltB (a b : SemVer) : Bool :=
  if a.major < b.major then true
  else if b.major < a.major then false
  else if a.minor < b.minor then true
  else if b.minor < a.minor then false
  else if a.patch < b.patch then true
  else if b.patch < a.patch then false
  else preLtB a.prerelease b.prerelease

/-- Modelled from the spec: `latest(versions) -> Version` (§4.1), max by
semver ordering.  Returns `none` on an empty list ("absent"). -/
def pickLatest : List SemVer → Option SemVer
  | [] => none
  | v :: rest =>
    match pickLatest rest with
    | none => some v
    | some b => if SemVer.ltB b v then some v else some b

/-- `pickLatest` over `(originalString, parsed)` pairs, keeping the original
string of the selected version. -/
def pickLatestTagged : List (String × SemVer) → Option (String × SemVer)
  | [] => none
  | v :: rest =>
    match pickLatestTagged rest with
    | none => some v
    | some b => if SemVer.ltB b.2 v.2 then some v else some b

/-- Latest version of a family of version strings, keeping the original
string of the selected version.  Any unparseable string invalidates the
family (`none`). -/
def latestStringVersion (versions : List String) : Option String :=
  match versions.mapM (fun s => (parseSemVer s).map fun v => (s, v)) with
  | none => none
  | some parsed => (pickLatestTagged parsed).map Prod.fst

/-- Lexicographic (alphabetic) strict ordering on character lists. -/
def charListLt : List Char → List Char → Bool
  | [], [] => false
  | [], _ :: _ => true
  | _ :: _, [] => false
  | a :: as, b :: bs => if a < b then true else if b < a then false else charListLt as bs

/-- The historical buggy behaviour named by the spec (§4.1): latest by
alphabetic (lexicographic string) ordering.  Stated from the spec's words,
for comparison only. -/
def alphaLatestStringVersion : List String → Option String
  | [] => none
  | v :: rest =>
    match alphaLatestStringVersion rest with
    | none => some v
    | some b => if charListLt b.data v.data then some v else some b

/-- Comparison operator of a primitive semver constraint. -/
inductive CmpOp where
  | eqOp | geOp | gtOp | leOp | ltOp
  deriving Repr, DecidableEq

/-- One primitive of a space-separated semver range expression. -/
structure ConstraintAtom where
  op : CmpOp
  ver : SemVer
  deriving Repr, DecidableEq

/-- Parse one range primitive: an optional comparison operator followed by a
version; a bare version means exact equality. -/
def parseAtom (l : List Char) : Option ConstraintAtom :=
  match l with
  | '>' :: '=' :: rest => (parseSemVerChars rest).map fun v => ⟨CmpOp.geOp, v⟩
  | '<' :: '=' :: rest => (parseSemVerChars rest).map fun v => ⟨CmpOp.leOp, v⟩
  | '>' :: rest => (parseSemVerChars rest).map fun v => ⟨CmpOp.gtOp, v⟩
  | '<' :: rest => (parseSemVerChars rest).map fun v => ⟨CmpOp.ltOp, v⟩
  | '=' :: rest => (parseSemVerChars rest).map fun v => ⟨CmpOp.eqOp, v⟩
  | rest => (parseSemVerChars rest).map fun v => ⟨CmpOp.eqOp, v⟩

/-- Parse a space-separated conjunction of range primitives. -/
def parseConstraints (s : String) : Option (List ConstraintAtom) :=
  (splitOnChar ' ' s.data).mapM parseAtom

/-- Does version `v` satisfy one range primitive? -/
def satisfiesAtom (v : SemVer) (a : ConstraintAtom) : Bool :=
  match a.op with
  | CmpOp.eqOp => decide (v = a.ver)
  | CmpOp.geOp => !SemVer.ltB v a.ver
  | CmpOp.gtOp => SemVer.ltB a.ver v
  | CmpOp.leOp => !SemVer.ltB a.ver v
  | CmpOp.ltOp => SemVer.ltB v a.ver

/-- Modelled from the spec: `matchesConstraint(version, constraintExpr)`
(§4.1); a version matches a range expression when it satisfies every
primitive.  An unparseable expression matches nothing. -/
def matchesConstraint (v : SemVer) (c : String) : Bool :=
  match parseConstraints c with
  | none => false
  | some atoms => atoms.all (satisfiesAtom v)

/-- Modelled from the spec: `latestMatching` (§4.1) — the latest version among
those satisfying the constraint; "absent" (`none`), not an error, when no
version satisfies it. -/
def latestMatchingVersion (versions : List String) (c : String) : Option String :=
  latestStringVersion (versions.filter fun s =>
    match parseSemVer s with
    | some v => matchesConstraint v c
    | none => false)

/-! ## Version policy resolver (spec §4.2)

Modelled from the spec: `deriveConstraint(baseVersion, upgradePolicy)`.  The
implementation (shared `pkgutils` helpers) is not under `src/`; the table of
§4.2 together with the expected `PackageInstall` constraints pinned by
`TestCreateInstalledPackage` define the behaviour. -/

/-- The four named upgrade policies. -/
inductive UpgradePolicy where
  | upNone | upPatch | upMinor | upMajor
  deriving Repr, DecidableEq

/-- Render a `major.minor.patch` core as a version string. -/
def renderVersionCore (a b c : Nat) : String :=
  toString a ++ "." ++ toString b ++ "." ++ toString c

/-- Modelled from the spec: the §4.2 table.  `none` ⇒ the exact version;
`patch` ⇒ `">=MAJOR.MINOR.0 <MAJOR.(MINOR+1).0"`; `minor` ⇒
`">=MAJOR.0.0 <(MAJOR+1).0.0"`; `major` ⇒ `">=MAJOR.MINOR.PATCH"` (no upper
bound).  Fails (`none`) on an unparseable base version. -/
def versionConstraintWithUpgradePolicy (base : String) (p : UpgradePolicy) : Option String :=
  (parseSemVer base).map fun sv =>
    match p with
    | UpgradePolicy.upNone => base
    | UpgradePolicy.upPatch =>
        ">=" ++ renderVersionCore sv.major sv.minor 0 ++
        " <" ++ renderVersionCore sv.major (sv.minor + 1) 0
    | UpgradePolicy.upMinor =>
        ">=" ++ renderVersionCore sv.major 0 0 ++
        " <" ++ renderVersionCore (sv.major + 1) 0 0
    | UpgradePolicy.upMajor =>
        ">=" ++ renderVersionCore sv.major sv.minor sv.patch

/-! ## Status normalizer (spec §4.3)

Modelled from the spec: the condition-list-to-status mapping.  The
implementation is not under `src/`; the buckets and messages are pinned by
`TestGetPackageRepositoryStatus` (the five kapp-controller condition type
tags, the `usefulErrorMessage` sentinel substitution, and the fall-back to
the condition type name when the condition carries no message). -/

/-- One reconciliation condition record of a kapp-controller resource. -/
structure Condition where
  condType : String
  condStatus : String
  reason : String
  message : String
  deriving Repr, DecidableEq

/-- The generic status block shared by kapp-controller resources. -/
structure GenericStatus where
  observedGeneration : Nat
  conditions : List Condition
  usefulErrorMessage : String
  deriving Repr, DecidableEq

/-- Normalized status bucket of a package repository / installed package. -/
inductive StatusReason where
  | success | pending | failed | unspecified
  deriving Repr, DecidableEq

/-- The wire-level normalized repository status. -/
structure PackageRepositoryStatus where
  ready : Bool
  reason : StatusReason
  userReason : String
  deriving Repr, DecidableEq

/-- The literal sentinel message that directs the reader to the
`usefulErrorMessage` field (pinned by the test vector at
`server_test.go:9561`). -/
def usefulErrorMessageSentinel : String :=
  "see .status.usefulErrorMessage for detailed error message"

/-- Bucket of a single condition type tag. -/
def statusReasonForType (t : String) : StatusReason :=
  if t = "ReconcileSucceeded" then StatusReason.success
  else if t = "ReconcileFailed" ∨ t = "DeleteFailed" then StatusReason.failed
  else if t = "Reconciling" ∨ t = "Deleting" then StatusReason.pending
  else StatusReason.unspecified

/-- User-visible reason derived from a condition: the condition's own message,
except that the sentinel is replaced by `usefulErrorMessage` and an empty
message falls back to the condition type name. -/
def statusUserReason (c : Condition) (useful : String) : String :=
  if c.message = usefulErrorMessageSentinel then useful
  else if c.message = "" then c.condType
  else c.message

/-- Modelled from the spec: the status normalizer (§4.3) over the first
condition; absence of conditions normalizes to Pending with a fixed default
message. -/
def packageRepositoryStatus (g : GenericStatus) : PackageRepositoryStatus :=
  match g.conditions with
  | [] => ⟨false, StatusReason.pending, "No status information yet"⟩
  | c :: _ =>
      ⟨c.condType == "ReconcileSucceeded",
       statusReasonForType c.condType,
       statusUserReason c g.usefulErrorMessage⟩

/-! ## Auth reconciler (spec §4.4)

Modelled from the spec: the redaction sentinel state machine for
plugin-managed repository secrets.  The implementation is not under `src/`;
the update-merge and read-side-redaction behaviours are pinned by
`TestUpdatePackageRepository` and `TestGetPackageRepositoryDetail`. -/

/-- Declared auth type of a package repository request or secret. -/
inductive PackageRepositoryAuthType where
  | basicAuth | sshAuth | bearerAuth | dockerConfigJson | unspecified
  deriving Repr, DecidableEq

/-- The redaction sentinel value (§4.4, glossary). -/
def redacted : String := "REDACTED"

/-- A plugin-managed secret as stored: its declared auth type and its
credential fields. -/
structure ManagedSecret where
  authType : PackageRepositoryAuthType
  data : List (String × String)
  deriving Repr, DecidableEq

/-- Modelled from the spec: the update-time redaction/merge rule (§4.4 item
4).  Each requested field equal to the sentinel is replaced by the prior
secret's value for that field; the sentinel with no prior secret, or with a
prior secret of a different auth type, is the "unexpected REDACTED content"
error.  Non-sentinel fields overwrite. -/
def redactedMerge (prior : Option ManagedSecret) (ty : PackageRepositoryAuthType) :
    List (String × String) → Except String (List (String × String))
  | [] => Except.ok []
  | (k, v) :: rest =>
    if v = redacted then
      match prior with
      | none => Except.error "unexpected REDACTED content"
      | some s =>
        if s.authType = ty then
          match s.data.lookup k with
          | some pv => (redactedMerge prior ty rest).map fun l => (k, pv) :: l
          | none => Except.error "unexpected REDACTED content"
        else Except.error "unexpected REDACTED content"
    else (redactedMerge prior ty rest).map fun l => (k, v) :: l

/-- A repository's auth secret as seen by the detail endpoint. -/
structure RepoSecret where
  name : String
  pluginManaged : Bool
  data : List (String × String)
  deriving Repr, DecidableEq

/-- Auth block of a repository-detail response: either a reference to a
user-managed secret by name, or the (redacted) credential fields of a
plugin-managed secret. -/
inductive RepositoryDetailAuth where
  | secretRef (name : String)
  | credentials (ty : PackageRepositoryAuthType) (fields : List (String × String))
  deriving Repr, DecidableEq

/-- Fixed key under which a bearer token is stored in an opaque secret. -/
def bearerAuthToken : String := "token"

/-- Classify a secret's auth type from the keys it carries (basic-auth
username/password, ssh private-key, bearer token key, docker config json). -/
def authTypeOfSecretData (data : List (String × String)) : PackageRepositoryAuthType :=
  if (data.lookup "username").isSome ∨ (data.lookup "password").isSome then
    PackageRepositoryAuthType.basicAuth
  else if (data.lookup "ssh-privatekey").isSome then PackageRepositoryAuthType.sshAuth
  else if (data.lookup bearerAuthToken).isSome then PackageRepositoryAuthType.bearerAuth
  else if (data.lookup ".dockerconfigjson").isSome then
    PackageRepositoryAuthType.dockerConfigJson
  else PackageRepositoryAuthType.unspecified

/-- The credential fields reported for a plugin-managed secret of each auth
type: every field of the declared type, each holding the sentinel. -/
def redactedFieldsForType : PackageRepositoryAuthType → List (String × String)
  | PackageRepositoryAuthType.basicAuth => [("username", redacted), ("password", redacted)]
  | PackageRepositoryAuthType.sshAuth => [("privateKey", redacted), ("knownHosts", redacted)]
  | PackageRepositoryAuthType.bearerAuth => [("header", redacted)]
  | PackageRepositoryAuthType.dockerConfigJson =>
      [("server", redacted), ("username", redacted), ("password", redacted), ("email", redacted)]
  | PackageRepositoryAuthType.unspecified => []

/-- Modelled from the spec: read-side redaction (§4.4).  A plugin-managed
secret is returned with every credential field of its auth type replaced by
the sentinel; a user-managed secret is returned only as its name reference. -/
def getRepositoryDetailAuth (s : RepoSecret) : RepositoryDetailAuth :=
  if s.pluginManaged then
    RepositoryDetailAuth.credentials (authTypeOfSecretData s.data)
      (redactedFieldsForType (authTypeOfSecretData s.data))
  else RepositoryDetailAuth.secretRef s.name

/-! ## Error codes, pagination (spec §5), repository update (spec §4.4) -/

/-- RPC status codes used by the plugin (§7). -/
inductive ErrorCode where
  | invalidArgument | notFound | alreadyExists | failedPrecondition | internal
  deriving Repr, DecidableEq

/-- Modelled from the spec: page-token decoding for list endpoints.  An empty
token denotes offset 0; a non-numeric token is an invalid-argument error.
The token denotes the zero-based item offset itself, as pinned by
`TestGetAvailablePackageSummaries` ("with an item offset (not a page
offset)"): token "1" with page size 2 over three summaries yields the items
at indices 1 and 2. -/
def itemOffsetFromPageToken (tok : String) : Except ErrorCode Nat :=
  if tok = "" then Except.ok 0
  else
    match parseNatChars tok.data with
    | some n => Except.ok n
    | none => Except.error ErrorCode.invalidArgument

/-- Pagination of a list endpoint's result set: a positive item offset at or
beyond the end of the result set is an invalid-argument error, not an empty
page; a page size of 0 means no limit. -/
def paginateSummaries {α : Type} (items : List α) (pageToken : String) (pageSize : Nat) :
    Except ErrorCode (List α) :=
  match itemOffsetFromPageToken pageToken with
  | Except.error e => Except.error e
  | Except.ok off =>
    if 0 < off ∧ items.length ≤ off then Except.error ErrorCode.invalidArgument
    else Except.ok (if 0 < pageSize then (items.drop off).take pageSize else items.drop off)

/-- A package repository as relevant to the update endpoint. -/
structure PackageRepository where
  name : String
  url : String
  description : String
  status : GenericStatus
  deriving Repr, DecidableEq

/-- A repository is stable when no Reconciling or Deleting condition is
present (§4.4 update item 1). -/
def repositoryIsStable (r : PackageRepository) : Bool :=
  r.status.conditions.all fun c =>
    !(c.condType == "Reconciling" || c.condType == "Deleting")

/-- The mutable fields of an update request relevant here. -/
structure UpdateRepositoryRequest where
  url : String
  description : String
  deriving Repr, DecidableEq

/-- An RPC error: status code plus human-readable message. -/
structure RepoError where
  code : ErrorCode
  message : String
  deriving Repr, DecidableEq

/-- Modelled from the spec: the update endpoint's stable-status precondition
(§4.4 update item 1).  An unstable repository fails with a
failed-precondition "not in a stable state" error before any mutation;
otherwise the request's fields are applied. -/
def updatePackageRepository (r : PackageRepository) (req : UpdateRepositoryRequest) :
    Except RepoError PackageRepository :=
  if repositoryIsStable r then
    Except.ok { r with url := req.url, description := req.description }
  else Except.error ⟨ErrorCode.failedPrecondition, "not in a stable state"⟩

/-- The stored repository after an update attempt: unchanged when the update
returned an error. -/
def repositoryAfterUpdate (r : PackageRepository) (req : UpdateRepositoryRequest) :
    PackageRepository :=
  match updatePackageRepository r req with
  | Except.ok r2 => r2
  | Except.error _ => r

/-! ## Plugin configuration (spec §6)

Modelled from the spec: `parsePluginConfig`.  The loader is not under `src/`;
per §6 the three options are independent keys of the plugin's YAML section,
and per the §9 design note `defaultAllowDowngrades` is derived only from the
`defaultAllowDowngrades` key.  The YAML/JSON decoding itself is an external
collaborator; a configuration file is embedded as the optional values found
under the three recognized keys. -/

/-- The parsed plugin configuration. -/
structure KappControllerPluginParsedConfig where
  defaultUpgradePolicy : UpgradePolicy
  defaultPrereleasesVersionSelection : Option (List String)
  defaultAllowDowngrades : Bool
  deriving Repr, DecidableEq

/-- Defaults used when the configuration file sets no options. -/
def defaultPluginConfig : KappControllerPluginParsedConfig :=
  ⟨UpgradePolicy.upNone, none, false⟩

/-- The values present under the three recognized keys of the plugin's
configuration section (`none` = key absent or null). -/
structure PluginConfigFile where
  defaultUpgradePolicy : Option String
  defaultPrereleasesVersionSelection : Option (List String)
  defaultAllowDowngrades : Option Bool
  deriving Repr, DecidableEq

/-- Decode the named upgrade policy. -/
def parseUpgradePolicy (s : String) : Except String UpgradePolicy :=
  if s = "none" then Except.ok UpgradePolicy.upNone
  else if s = "patch" then Except.ok UpgradePolicy.upPatch
  else if s = "minor" then Except.ok UpgradePolicy.upMinor
  else if s = "major" then Except.ok UpgradePolicy.upMajor
  else Except.error ("unsupported upgrade policy: [" ++ s ++ "]")

/-- Modelled from the spec: the plugin configuration parser (§6), each option
derived from its own key, absent keys falling back to the defaults. -/
def parsePluginConfig (f : PluginConfigFile) : Except String KappControllerPluginParsedConfig :=
  match f.defaultUpgradePolicy with
  | none =>
      Except.ok
        ⟨defaultPluginConfig.defaultUpgradePolicy,
         f.defaultPrereleasesVersionSelection,
         f.defaultAllowDowngrades.getD defaultPluginConfig.defaultAllowDowngrades⟩
  | some s =>
      (parseUpgradePolicy s).map fun p =>
        ⟨p,
         f.defaultPrereleasesVersionSelection,
         f.defaultAllowDowngrades.getD defaultPluginConfig.defaultAllowDowngrades⟩

/-! ## Available package summaries (spec §2, §4.1; C10)

Modelled from the spec: `GetAvailablePackageSummaries` builds one summary per
`PackageMetadata`, reporting the latest version of that package family; the
implementation is not under `src/`, and `TestGetAvailablePackageSummaries`
pins that a metadata whose family has no `Package` resource fails the whole
call with an internal error. -/

/-- The fields of a `PackageMetadata` resource relevant here. -/
structure PackageMetadata where
  name : String
  displayName : String
  deriving Repr, DecidableEq

/-- The fields of a versioned `Package` resource relevant here. -/
structure PackageResource where
  refName : String
  version : String
  deriving Repr, DecidableEq

/-- One available-package summary. -/
structure AvailablePackageSummary where
  name : String
  displayName : String
  latestVersion : String
  deriving Repr, DecidableEq

/-- Error-propagating map over a list (first error aborts the whole call). -/
def mapExcept {α β ε : Type} (f : α → Except ε β) : List α → Except ε (List β)
  | [] => Except.ok []
  | a :: l =>
    match f a with
    | Except.error e => Except.error e
    | Except.ok b => (mapExcept f l).map fun bs => b :: bs

/-- The version strings of the package family named `refName`. -/
def familyVersions (pkgs : List PackageResource) (refName : String) : List String :=
  (pkgs.filter fun p => p.refName == refName).map fun p => p.version

/-- Modelled from the spec: the core of `GetAvailablePackageSummaries` — one
summary per metadata with the family's latest version; a family with no
resolvable latest version fails the whole call with an internal error. -/
def availablePackageSummaries (metas : List PackageMetadata) (pkgs : List PackageResource) :
    Except ErrorCode (List AvailablePackageSummary) :=
  mapExcept
    (fun m =>
      match latestStringVersion (familyVersions pkgs m.name) with
      | some v => Except.ok ⟨m.name, m.displayName, v⟩
      | none => Except.error ErrorCode.internal)
    metas

/-! ## Ordering lemmas for the semver engine -/

theorem preLtB_irrefl (x : Option String) : preLtB x x = false := by
  cases x with
  | none => rfl
  | some s => simp [preLtB]

theorem preLtB_trans {x y z : Option String}
    (h1 : preLtB x y = true) (h2 : preLtB y z = true) : preLtB x z = true := by
  cases x with
  | none => simp [preLtB] at h1
  | some a =>
    cases y with
    | none => simp [preLtB] at h2
    | some b =>
      cases z with
      | none => simp [preLtB]
      | some c =>
        simp only [preLtB, decide_eq_true_eq] at h1 h2 ⊢
        exact lt_trans h1 h2

theorem SemVer.ltB_iff (a b : SemVer) :
    SemVer.ltB a b = true ↔
      a.major < b.major ∨ (a.major = b.major ∧
        (a.minor < b.minor ∨ (a.minor = b.minor ∧
          (a.patch < b.patch ∨ (a.patch = b.patch ∧
            preLtB a.prerelease b.prerelease = true))))) := by
  unfold SemVer.ltB
  split_ifs with h1 h2 h3 h4 h5 h6
  · simp [h1]
  · simp only [Bool.false_eq_true, false_iff]
    rintro (h | ⟨e, -⟩) <;> omega
  · simp only [true_iff]
    exact Or.inr ⟨by omega, Or.inl h3⟩
  · simp only [Bool.false_eq_true, false_iff]
    rintro (h | ⟨e, h | ⟨e', -⟩⟩) <;> omega
  · simp only [true_iff]
    exact Or.inr ⟨by omega, Or.inr ⟨by omega, Or.inl h5⟩⟩
  · simp only [Bool.false_eq_true, false_iff]
    rintro (h | ⟨e, h | ⟨e', h | ⟨e'', -⟩⟩⟩) <;> omega
  · constructor
    · intro hp
      exact Or.inr ⟨by omega, Or.inr ⟨by omega, Or.inr ⟨by omega, hp⟩⟩⟩
    · rintro (h | ⟨e, h | ⟨e', h | ⟨e'', hp⟩⟩⟩) <;> first | omega | exact hp

theorem SemVer.ltB_irrefl (a : SemVer) : SemVer.ltB a a = false := by
  cases h : SemVer.ltB a a with
  | false => rfl
  | true =>
    rw [SemVer.ltB_iff] at h
    rcases h with h | ⟨_, h | ⟨_, h | ⟨_, h⟩⟩⟩ <;>
      first
        | exact absurd h (lt_irrefl _)
        | exact absurd h (by rw [preLtB_irrefl]; exact Bool.false_ne_true)

theorem SemVer.ltB_trans {a b c : SemVer}
    (h1 : SemVer.ltB a b = true) (h2 : SemVer.ltB b c = true) :
    SemVer.ltB a c = true := by
  rw [SemVer.ltB_iff] at h1 h2 ⊢
  rcases h1 with h1 | ⟨e1, h1 | ⟨f1, h1 | ⟨g1, p1⟩⟩⟩ <;>
    rcases h2 with h2 | ⟨e2, h2 | ⟨f2, h2 | ⟨g2, p2⟩⟩⟩ <;>
      first
        | exact Or.inl (by omega)
        | exact Or.inr ⟨by omega, Or.inl (by omega)⟩
        | exact Or.inr ⟨by omega, Or.inr ⟨by omega, Or.inl (by omega)⟩⟩
        | exact Or.inr ⟨by omega, Or.inr ⟨by omega, Or.inr ⟨by omega, preLtB_trans p1 p2⟩⟩⟩

theorem pickLatest_max (l : List SemVer) (m : SemVer) (hp : pickLatest l = some m) :
    m ∈ l ∧ ∀ v ∈ l, SemVer.ltB m v = false := by
  induction l generalizing m with
  | nil => simp [pickLatest] at hp
  | cons v rest ih =>
    rw [pickLatest] at hp
    cases hrest : pickLatest rest with
    | none =>
      rw [hrest] at hp
      cases rest with
      | nil =>
        simp at hp
        subst hp
        refine ⟨List.mem_singleton_self _, ?_⟩
        intro x hx
        rw [List.mem_singleton] at hx
        subst hx
        exact SemVer.ltB_irrefl _
      | cons w ws =>
        rw [pickLatest] at hrest
        cases h2 : pickLatest ws <;> rw [h2] at hrest <;> simp at hrest
        split at hrest <;> simp at hrest
    | some b =>
      rw [hrest] at hp
      obtain ⟨hbmem, hbmax⟩ := ih b hrest
      by_cases hbv : SemVer.ltB b v = true
      · simp [hbv] at hp
        subst hp
        refine ⟨List.mem_cons_self _ _, ?_⟩
        intro x hx
        rcases List.mem_cons.mp hx with hx | hx
        · subst hx; exact SemVer.ltB_irrefl _
        · cases hvx : SemVer.ltB v x with
          | false => rfl
          | true => exact absurd (SemVer.ltB_trans hbv hvx) (by rw [hbmax x hx]; exact Bool.false_ne_true)
      · simp [hbv] at hp
        subst hp
        refine ⟨List.mem_cons_of_mem _ hbmem, ?_⟩
        intro x hx
        rcases List.mem_cons.mp hx with hx | hx
        · subst hx; exact Bool.eq_false_iff.mpr hbv
        · exact hbmax x hx

theorem latestStringVersion_nil : latestStringVersion [] = none := rfl

/-! ## Claim theorems -/

/-- Claim C1: for every set of version strings of a package family, the
latest-version selection picks the maximum by semantic-version ordering (the
selected element belongs to the family and no member is strictly greater),
not by lexicographic string ordering: for {"1.2.3", "1.2.10", "1.2.4"} the
reported latest version is "1.2.10", whereas the alphabetic maximum would be
"1.2.4". -/
theorem latest_version_by_semver_not_alpha :
    (∀ (l : List SemVer) (m : SemVer), pickLatest l = some m →
        m ∈ l ∧ ∀ v ∈ l, SemVer.ltB m v = false) ∧
    latestStringVersion ["1.2.3", "1.2.10", "1.2.4"] = some "1.2.10" ∧
    alphaLatestStringVersion ["1.2.3", "1.2.10", "1.2.4"] = some "1.2.4" :=
  ⟨pickLatest_max, by decide, by decide⟩

/-- Witness for C1: the selection over the parsed family
{1.2.3, 1.2.10, 1.2.4} is 1.2.10, it belongs to the family, and no member is
strictly greater. -/
theorem latest_version_by_semver_not_alpha_witness :
    (⟨1, 2, 10, none⟩ : SemVer) ∈
        [(⟨1, 2, 3, none⟩ : SemVer), ⟨1, 2, 10, none⟩, ⟨1, 2, 4, none⟩] ∧
    ∀ v ∈ [(⟨1, 2, 3, none⟩ : SemVer), ⟨1, 2, 10, none⟩, ⟨1, 2, 4, none⟩],
        SemVer.ltB ⟨1, 2, 10, none⟩ v = false :=
  latest_version_by_semver_not_alpha.1
    [⟨1, 2, 3, none⟩, ⟨1, 2, 10, none⟩, ⟨1, 2, 4, none⟩] ⟨1, 2, 10, none⟩ (by decide)

/-- Claim C2: the constraint derived from (baseVersion, upgradePolicy)
matches the §4.2 table at base "1.0.0": none ⇒ "1.0.0", patch ⇒
">=1.0.0 <1.1.0", minor ⇒ ">=1.0.0 <2.0.0", major ⇒ ">=1.0.0". -/
theorem derive_constraint_table :
    versionConstraintWithUpgradePolicy "1.0.0" UpgradePolicy.upNone = some "1.0.0" ∧
    versionConstraintWithUpgradePolicy "1.0.0" UpgradePolicy.upPatch = some ">=1.0.0 <1.1.0" ∧
    versionConstraintWithUpgradePolicy "1.0.0" UpgradePolicy.upMinor = some ">=1.0.0 <2.0.0" ∧
    versionConstraintWithUpgradePolicy "1.0.0" UpgradePolicy.upMajor = some ">=1.0.0" :=
  ⟨by decide, by decide, by decide, by decide⟩

/-- Claim C3 counterexample: for the condition list
[(Reconciling, message "")] the normalizer reports user reason "Reconciling"
(the condition type name), which differs from the condition's own message ""
even though "" is not the usefulErrorMessage sentinel — so the user reason is
not always the condition's own message. -/
theorem status_user_reason_counterexample :
    (packageRepositoryStatus ⟨0, [⟨"Reconciling", "", "", ""⟩], ""⟩).userReason =
        "Reconciling" ∧
    ("" : String) ≠ usefulErrorMessageSentinel ∧
    ("Reconciling" : String) ≠ "" := by
  refine ⟨by decide, by decide, by decide⟩

/-- Claim C3 (amended): the normalizer maps the first condition to exactly
one of the four buckets (ReconcileSucceeded ⇒ success/ready, Reconciling or
Deleting ⇒ pending, ReconcileFailed or DeleteFailed ⇒ failed, anything else
⇒ unspecified), and the reported user reason is the condition's own message,
except that the usefulErrorMessage sentinel is substituted by the
usefulErrorMessage field and an empty message falls back to the condition
type name. -/
theorem status_normalizer_buckets (g : GenericStatus) (c : Condition)
    (rest : List Condition) (hg : g.conditions = c :: rest) :
    ((c.condType = "ReconcileSucceeded" →
        (packageRepositoryStatus g).reason = StatusReason.success ∧
        (packageRepositoryStatus g).ready = true) ∧
     (c.condType = "Reconciling" ∨ c.condType = "Deleting" →
        (packageRepositoryStatus g).reason = StatusReason.pending ∧
        (packageRepositoryStatus g).ready = false) ∧
     (c.condType = "ReconcileFailed" ∨ c.condType = "DeleteFailed" →
        (packageRepositoryStatus g).reason = StatusReason.failed ∧
        (packageRepositoryStatus g).ready = false) ∧
     (c.condType ∉ ["ReconcileSucceeded", "Reconciling", "Deleting",
          "ReconcileFailed", "DeleteFailed"] →
        (packageRepositoryStatus g).reason = StatusReason.unspecified ∧
        (packageRepositoryStatus g).ready = false)) ∧
    ((c.message = usefulErrorMessageSentinel →
        (packageRepositoryStatus g).userReason = g.usefulErrorMessage) ∧
     (c.message ≠ usefulErrorMessageSentinel → c.message ≠ "" →
        (packageRepositoryStatus g).userReason = c.message) ∧
     (c.message = "" →
        (packageRepositoryStatus g).userReason = c.condType)) := by
  have hst : packageRepositoryStatus g =
      ⟨c.condType == "ReconcileSucceeded", statusReasonForType c.condType,
        statusUserReason c g.usefulErrorMessage⟩ := by
    unfold packageRepositoryStatus
    rw [hg]
  rw [hst]
  refine ⟨⟨?_, ?_, ?_, ?_⟩, ?_, ?_, ?_⟩
  · intro h
    rw [h]
    exact ⟨rfl, rfl⟩
  · rintro (h | h) <;> rw [h] <;> exact ⟨rfl, rfl⟩
  · rintro (h | h) <;> rw [h] <;> exact ⟨rfl, rfl⟩
  · intro h
    simp only [List.mem_cons, List.not_mem_nil, or_false, not_or] at h
    obtain ⟨h1, h2, h3, h4, h5⟩ := h
    constructor
    · unfold statusReasonForType
      rw [if_neg h1, if_neg (not_or.mpr ⟨h4, h5⟩), if_neg (not_or.mpr ⟨h2, h3⟩)]
    · simp [h1]
  · intro h
    unfold statusUserReason
    rw [if_pos h]
  · intro h h2
    unfold statusUserReason
    rw [if_neg h, if_neg h2]
  · intro h
    unfold statusUserReason
    rw [h]
    rw [if_neg (by decide), if_pos rfl]

/-- Witness for the amended C3 at the test vectors: a ReconcileFailed
condition carrying the sentinel message reports the usefulErrorMessage field
as user reason and lands in the failed bucket. -/
theorem status_normalizer_buckets_witness :
    (packageRepositoryStatus ⟨0, [⟨"ReconcileFailed", "", "", usefulErrorMessageSentinel⟩],
        "fetch failed connecting to registry"⟩).reason = StatusReason.failed ∧
    (packageRepositoryStatus ⟨0, [⟨"ReconcileFailed", "", "", usefulErrorMessageSentinel⟩],
        "fetch failed connecting to registry"⟩).userReason =
      "fetch failed connecting to registry" := by
  have h := status_normalizer_buckets
    ⟨0, [⟨"ReconcileFailed", "", "", usefulErrorMessageSentinel⟩],
      "fetch failed connecting to registry"⟩
    ⟨"ReconcileFailed", "", "", usefulErrorMessageSentinel⟩ [] rfl
  exact ⟨(h.1.2.2.1 (Or.inl rfl)).1, h.2.1 rfl⟩

/-- Claim C4: when no available version satisfies the installed package's
constraint, the latest-matching version is absent (`none`), not an error —
and the overall latest version is still reported: with constraint "9.9.9"
against versions {"1.2.3", "1.2.7"}, latestMatching is absent while the
latest version is "1.2.7". -/
theorem latest_matching_constraint_unsatisfied (versions : List String) (c : String)
    (h : ∀ s ∈ versions,
      (match parseSemVer s with
        | some v => matchesConstraint v c
        | none => false) = false) :
    latestMatchingVersion versions c = none ∧
    latestMatchingVersion ["1.2.3", "1.2.7"] "9.9.9" = none ∧
    latestStringVersion ["1.2.3", "1.2.7"] = some "1.2.7" := by
  refine ⟨?_, by decide, by decide⟩
  unfold latestMatchingVersion
  have hf : (versions.filter fun s =>
      match parseSemVer s with
      | some v => matchesConstraint v c
      | none => false) = [] := by
    rw [List.filter_eq_nil_iff]
    intro s hs
    rw [h s hs]
    exact Bool.false_ne_true
  rw [hf, latestStringVersion_nil]

/-- Witness for C4: the concrete scenario of the claim. -/
theorem latest_matching_constraint_unsatisfied_witness :
    latestMatchingVersion ["1.2.3", "1.2.7"] "9.9.9" = none ∧
    latestStringVersion ["1.2.3", "1.2.7"] = some "1.2.7" := by
  have h := latest_matching_constraint_unsatisfied ["1.2.3", "1.2.7"] "9.9.9" (by decide)
  exact ⟨h.1, h.2.2⟩

theorem redactedMerge_preserves (s : ManagedSecret) (ty : PackageRepositoryAuthType)
    (heq : s.authType = ty) (fields : List (String × String))
    (hall : ∀ kv ∈ fields, kv.2 = redacted → (s.data.lookup kv.1).isSome = true) :
    redactedMerge (some s) ty fields =
      Except.ok (fields.map fun kv =>
        if kv.2 = redacted then (kv.1, (s.data.lookup kv.1).getD "") else kv) := by
  induction fields with
  | nil => rfl
  | cons hd rest ih =>
    obtain ⟨k0, v0⟩ := hd
    simp only [redactedMerge]
    by_cases hv : v0 = redacted
    · rw [if_pos hv]
      have hks := hall (k0, v0) (List.mem_cons_self _ _) hv
      obtain ⟨pv, hpv⟩ := Option.isSome_iff_exists.mp hks
      rw [if_pos heq, hpv]
      rw [ih fun kv hm hr => hall kv (List.mem_cons_of_mem _ hm) hr]
      simp [Except.map, hv, hpv]
    · rw [if_neg hv]
      rw [ih fun kv hm hr => hall kv (List.mem_cons_of_mem _ hm) hr]
      simp [Except.map, hv]

theorem redactedMerge_mismatch_error (s : ManagedSecret) (ty : PackageRepositoryAuthType)
    (hne : ¬s.authType = ty) (fields : List (String × String)) (k : String)
    (hk : (k, redacted) ∈ fields) :
    redactedMerge (some s) ty fields = Except.error "unexpected REDACTED content" := by
  induction fields with
  | nil => simp at hk
  | cons hd rest ih =>
    obtain ⟨k0, v0⟩ := hd
    simp only [redactedMerge]
    by_cases hv : v0 = redacted
    · rw [if_pos hv, if_neg hne]
    · rw [if_neg hv]
      rcases List.mem_cons.mp hk with hk | hk
      · exact absurd (congrArg Prod.snd hk).symm hv
      · rw [ih hk]
        rfl

theorem redactedMerge_no_prior_error (ty : PackageRepositoryAuthType)
    (fields : List (String × String)) (k : String) (hk : (k, redacted) ∈ fields) :
    redactedMerge none ty fields = Except.error "unexpected REDACTED content" := by
  induction fields with
  | nil => simp at hk
  | cons hd rest ih =>
    obtain ⟨k0, v0⟩ := hd
    simp only [redactedMerge]
    by_cases hv : v0 = redacted
    · rw [if_pos hv]
    · rw [if_neg hv]
      rcases List.mem_cons.mp hk with hk | hk
      · exact absurd (congrArg Prod.snd hk).symm hv
      · rw [ih hk]
        rfl

/-- Claim C5: on update, a credential field equal to the redaction sentinel
inherits the prior plugin-managed secret's value for that field while
non-sentinel fields overwrite, provided the prior secret exists and has the
requested auth type; with no prior secret, or a prior secret of a different
auth type, the update fails with the "unexpected REDACTED content" error. -/
theorem update_redacted_credentials (s : ManagedSecret) (ty : PackageRepositoryAuthType)
    (fields : List (String × String)) :
    (s.authType = ty →
      (∀ kv ∈ fields, kv.2 = redacted → (s.data.lookup kv.1).isSome = true) →
      redactedMerge (some s) ty fields =
        Except.ok (fields.map fun kv =>
          if kv.2 = redacted then (kv.1, (s.data.lookup kv.1).getD "") else kv)) ∧
    (¬s.authType = ty → ∀ k, (k, redacted) ∈ fields →
      redactedMerge (some s) ty fields = Except.error "unexpected REDACTED content") ∧
    (∀ k, (k, redacted) ∈ fields →
      redactedMerge none ty fields = Except.error "unexpected REDACTED content") :=
  ⟨fun heq hall => redactedMerge_preserves s ty heq fields hall,
   fun hne k hk => redactedMerge_mismatch_error s ty hne fields k hk,
   fun k hk => redactedMerge_no_prior_error ty fields k hk⟩

/-- Witness for C5 at the test scenario: a basic-auth secret foo/bar updated
with username=REDACTED, password="bar2" keeps username "foo" and stores
password "bar2"; the same request against a prior bearer-token secret fails
with "unexpected REDACTED content". -/
theorem update_redacted_credentials_witness :
    redactedMerge
        (some ⟨PackageRepositoryAuthType.basicAuth, [("username", "foo"), ("password", "bar")]⟩)
        PackageRepositoryAuthType.basicAuth
        [("username", redacted), ("password", "bar2")] =
      Except.ok [("username", "foo"), ("password", "bar2")] ∧
    redactedMerge
        (some ⟨PackageRepositoryAuthType.bearerAuth, [(bearerAuthToken, "zot")]⟩)
        PackageRepositoryAuthType.basicAuth
        [("username", redacted), ("password", "bar")] =
      Except.error "unexpected REDACTED content" := by
  constructor
  · have h := (update_redacted_credentials
      ⟨PackageRepositoryAuthType.basicAuth, [("username", "foo"), ("password", "bar")]⟩
      PackageRepositoryAuthType.basicAuth
      [("username", redacted), ("password", "bar2")]).1 rfl (by decide)
    rw [h]
    rfl
  · exact (update_redacted_credentials
      ⟨PackageRepositoryAuthType.bearerAuth, [(bearerAuthToken, "zot")]⟩
      PackageRepositoryAuthType.basicAuth
      [("username", redacted), ("password", "bar")]).2.1 (by decide) "username" (by decide)

theorem redactedFields_all_redacted (ty : PackageRepositoryAuthType) :
    ∀ kv ∈ redactedFieldsForType ty, kv.2 = redacted := by
  cases ty <;> decide

/-- Claim C6: repository detail never returns a plugin-managed secret's
credential values — every credential field of the declared auth type is
replaced by the redaction sentinel — and a user-managed secret is returned
only as its name reference. -/
theorem detail_auth_redacted (s : RepoSecret) :
    (s.pluginManaged = true →
      getRepositoryDetailAuth s =
        RepositoryDetailAuth.credentials (authTypeOfSecretData s.data)
          (redactedFieldsForType (authTypeOfSecretData s.data)) ∧
      ∀ kv ∈ redactedFieldsForType (authTypeOfSecretData s.data), kv.2 = redacted) ∧
    (s.pluginManaged = false →
      getRepositoryDetailAuth s = RepositoryDetailAuth.secretRef s.name) := by
  constructor
  · intro h
    constructor
    · unfold getRepositoryDetailAuth
      rw [if_pos h]
    · exact redactedFields_all_redacted _
  · intro h
    unfold getRepositoryDetailAuth
    rw [if_neg (by rw [h]; exact Bool.false_ne_true)]

/-- Witness for C6 at the test vectors: a plugin-managed basic-auth secret
is reported with username/password both REDACTED; a user-managed secret is
reported as the reference "my-secret". -/
theorem detail_auth_redacted_witness :
    getRepositoryDetailAuth ⟨"my-secret", true, [("username", "foo"), ("password", "bar")]⟩ =
      RepositoryDetailAuth.credentials PackageRepositoryAuthType.basicAuth
        [("username", redacted), ("password", redacted)] ∧
    getRepositoryDetailAuth ⟨"my-secret", false, [("username", "foo"), ("password", "bar")]⟩ =
      RepositoryDetailAuth.secretRef "my-secret" := by
  constructor
  · have h := (detail_auth_redacted
      ⟨"my-secret", true, [("username", "foo"), ("password", "bar")]⟩).1 rfl
    rw [h.1]
    rfl
  · exact (detail_auth_redacted
      ⟨"my-secret", false, [("username", "foo"), ("password", "bar")]⟩).2 rfl

/-- Claim C7 counterexample: the page token is the zero-based item offset
itself, not an offset multiplied by the page size: with three summaries and
page size 2, token "2" succeeds and returns the third summary (the claim
predicts an invalid-argument error at offset 2×2=4), and token "1" returns
the second and third summaries (items 1 and 2, not a page starting at
item 2). -/
theorem paginate_item_offset_counterexample :
    paginateSummaries ["a", "b", "c"] "2" 2 = Except.ok ["c"] ∧
    paginateSummaries ["a", "b", "c"] "1" 2 = Except.ok ["b", "c"] :=
  ⟨rfl, rfl⟩

/-- Claim C7 (amended): the page token denotes the zero-based item offset
itself; requesting a positive offset at or beyond the end of the result set
yields an invalid-argument error rather than an empty page. -/
theorem paginate_beyond_end_invalid {α : Type} (items : List α) (tok : String)
    (size off : Nat) (hoff : itemOffsetFromPageToken tok = Except.ok off)
    (hpos : 0 < off) (hend : items.length ≤ off) :
    paginateSummaries items tok size = Except.error ErrorCode.invalidArgument := by
  unfold paginateSummaries
  rw [hoff]
  exact if_pos ⟨hpos, hend⟩

/-- Witness for the amended C7: with three summaries, token "3" (offset 3,
one past the last item) is an invalid-argument error. -/
theorem paginate_beyond_end_invalid_witness :
    paginateSummaries ["a", "b", "c"] "3" 2 = Except.error ErrorCode.invalidArgument :=
  paginate_beyond_end_invalid ["a", "b", "c"] "3" 2 3 rfl (by decide) (by decide)

/-- Claim C8: updating a repository that has a Reconciling or Deleting
condition fails with a failed-precondition "not in a stable state" error and
leaves the repository unchanged. -/
theorem update_unstable_precondition (r : PackageRepository) (req : UpdateRepositoryRequest)
    (c : Condition) (hc : c ∈ r.status.conditions)
    (ht : c.condType = "Reconciling" ∨ c.condType = "Deleting") :
    updatePackageRepository r req =
      Except.error ⟨ErrorCode.failedPrecondition, "not in a stable state"⟩ ∧
    repositoryAfterUpdate r req = r := by
  have hstable : repositoryIsStable r = false := by
    unfold repositoryIsStable
    rw [List.all_eq_false]
    exact ⟨c, hc, by rcases ht with h | h <;> simp [h]⟩
  constructor
  · unfold updatePackageRepository
    rw [hstable]
    simp
  · unfold repositoryAfterUpdate updatePackageRepository
    rw [hstable]
    simp

/-- Witness for C8: updating the test repository while a Reconciling
condition is present fails with the failed-precondition error and does not
mutate the stored repository. -/
theorem update_unstable_precondition_witness :
    updatePackageRepository
        ⟨"globalrepo", "projects.registry.example.com/repo-1/main@sha256:abcd", "",
          ⟨0, [⟨"Reconciling", "", "", ""⟩], ""⟩⟩
        ⟨"projects.registry.example.com/repo-1/main@sha256:abcd", "updated description"⟩ =
      Except.error ⟨ErrorCode.failedPrecondition, "not in a stable state"⟩ ∧
    repositoryAfterUpdate
        ⟨"globalrepo", "projects.registry.example.com/repo-1/main@sha256:abcd", "",
          ⟨0, [⟨"Reconciling", "", "", ""⟩], ""⟩⟩
        ⟨"projects.registry.example.com/repo-1/main@sha256:abcd", "updated description"⟩ =
      ⟨"globalrepo", "projects.registry.example.com/repo-1/main@sha256:abcd", "",
        ⟨0, [⟨"Reconciling", "", "", ""⟩], ""⟩⟩ :=
  update_unstable_precondition _ _ ⟨"Reconciling", "", "", ""⟩ (by decide) (Or.inl rfl)

/-- Claim C9: the plugin configuration parser derives
`defaultAllowDowngrades` only from the `defaultAllowDowngrades` key (absent
key ⇒ the default value), independently of
`defaultPrereleasesVersionSelection`, which is itself passed through
unchanged. -/
theorem allow_downgrades_independent (f : PluginConfigFile)
    (c : KappControllerPluginParsedConfig) (h : parsePluginConfig f = Except.ok c) :
    c.defaultAllowDowngrades =
      f.defaultAllowDowngrades.getD defaultPluginConfig.defaultAllowDowngrades ∧
    (f.defaultAllowDowngrades = none →
      c.defaultAllowDowngrades = defaultPluginConfig.defaultAllowDowngrades) ∧
    c.defaultPrereleasesVersionSelection = f.defaultPrereleasesVersionSelection := by
  obtain ⟨fu, fp, fa⟩ := f
  cases fu with
  | none =>
    simp only [parsePluginConfig] at h
    rw [Except.ok.injEq] at h
    subst h
    refine ⟨rfl, fun hn => ?_, rfl⟩
    have hn2 : fa = none := hn
    subst hn2
    rfl
  | some s =>
    simp only [parsePluginConfig] at h
    cases hps : parseUpgradePolicy s with
    | ok p =>
      rw [hps] at h
      simp only [Except.map] at h
      rw [Except.ok.injEq] at h
      subst h
      refine ⟨rfl, fun hn => ?_, rfl⟩
      have hn2 : fa = none := hn
      subst hn2
      rfl
    | error e =>
      rw [hps] at h
      simp [Except.map] at h

/-- Witness for C9: a configuration setting only
`defaultPrereleasesVersionSelection` parses with `defaultAllowDowngrades`
still at its default value. -/
theorem allow_downgrades_independent_witness :
    (⟨UpgradePolicy.upNone, some ["foo", "bar"], false⟩ :
        KappControllerPluginParsedConfig).defaultAllowDowngrades =
      (none : Option Bool).getD defaultPluginConfig.defaultAllowDowngrades ∧
    ((none : Option Bool) = none →
      (⟨UpgradePolicy.upNone, some ["foo", "bar"], false⟩ :
          KappControllerPluginParsedConfig).defaultAllowDowngrades =
        defaultPluginConfig.defaultAllowDowngrades) ∧
    (⟨UpgradePolicy.upNone, some ["foo", "bar"], false⟩ :
        KappControllerPluginParsedConfig).defaultPrereleasesVersionSelection =
      (⟨none, some ["foo", "bar"], none⟩ : PluginConfigFile).defaultPrereleasesVersionSelection :=
  allow_downgrades_independent ⟨none, some ["foo", "bar"], none⟩
    ⟨UpgradePolicy.upNone, some ["foo", "bar"], false⟩ rfl

/-- Claim C10: if some PackageMetadata's package family has no Package
resource, listing available package summaries fails entirely with an
internal error — no partial summary list is returned. -/
theorem dangling_metadata_internal (metas : List PackageMetadata)
    (pkgs : List PackageResource) (m : PackageMetadata) (hm : m ∈ metas)
    (hfam : familyVersions pkgs m.name = []) :
    availablePackageSummaries metas pkgs = Except.error ErrorCode.internal := by
  induction metas with
  | nil => simp at hm
  | cons hd rest ih =>
    unfold availablePackageSummaries at ih ⊢
    simp only [mapExcept]
    rcases List.mem_cons.mp hm with hm | hm
    · subst hm
      rw [hfam, latestStringVersion_nil]
    · cases hls : latestStringVersion (familyVersions pkgs hd.name) with
      | none => rfl
      | some v =>
        rw [ih hm]
        rfl

/-- Witness for C10 at the test scenario: a single metadata
"tetris.foo.example.com" with no Package resources fails with an internal
error. -/
theorem dangling_metadata_internal_witness :
    availablePackageSummaries [⟨"tetris.foo.example.com", "Classic Tetris"⟩] [] =
      Except.error ErrorCode.internal :=
  dangling_metadata_internal [⟨"tetris.foo.example.com", "Classic Tetris"⟩] []
    ⟨"tetris.foo.example.com", "Classic Tetris"⟩ (by decide) rfl

end KappController
